import Mathlib

/-
Verification of the scene-configuration repair engine of the
stateful_scenes integration.  The definitions below are a shallow
embedding of custom_components/stateful_scenes/repairs.py,
scene_repair_service.py and helpers.py; file I/O is modelled by a small
file-system state and yaml.load / yaml.dump are abstract serialization
parameters.
-/

namespace StatefulScenes

/-- Scalar and container values as parsed from the YAML scene file by
yaml.load: Python None, strings, ints, booleans, dicts (insertion
ordered, modelled as association lists), lists and tuples.  Tuples cannot
come out of YAML, but helpers.prune_empty_scene_values explicitly tests
for the empty tuple, so they are part of the value domain of that
function. -/
inductive Val where
  | vnull : Val
  | vstr : String → Val
  | vint : Int → Val
  | vbool : Bool → Val
  | vdict : List (String × Val) → Val
  | vlist : List Val → Val
  | vtup : List Val → Val
deriving Repr

/-- Python test data is None. -/
def isNone : Val → Bool
  | .vnull => true
  | _ => false

/-- Python membership test of cleaned against the tuple holding None, the
empty dict, the empty list and the empty tuple, used by
prune_empty_scene_values to discard empty containers (helpers.py). -/
def isDiscardable : Val → Bool
  | .vnull => true
  | .vdict [] => true
  | .vlist [] => true
  | .vtup [] => true
  | _ => false

mutual

/-- helpers.prune_empty_scene_values: recursively remove None values and
entries whose cleaned value is an empty container from dicts and lists;
any other data (scalars and tuples) is returned unchanged. -/
def prune_empty_scene_values : Val → Val
  | .vdict entries => .vdict (pruneEntries entries)
  | .vlist items => .vlist (pruneItems items)
  | v => v

/-- The dict branch of prune_empty_scene_values: iterate the items, skip
None values, recursively clean the value, drop the key when the cleaned
value is None or an empty container, keep the cleaned value otherwise. -/
def pruneEntries : List (String × Val) → List (String × Val)
  | [] => []
  | (k, v) :: rest =>
    if isNone v then pruneEntries rest
    else if isDiscardable (prune_empty_scene_values v) then pruneEntries rest
    else (k, prune_empty_scene_values v) :: pruneEntries rest

/-- The list branch of prune_empty_scene_values, same filtering over list
items. -/
def pruneItems : List Val → List Val
  | [] => []
  | v :: rest =>
    if isNone v then pruneItems rest
    else if isDiscardable (prune_empty_scene_values v) then pruneItems rest
    else prune_empty_scene_values v :: pruneItems rest

end

mutual

/-- No dict value and no list item reached through dicts and lists is
None or an empty container.  Tuples are opaque here, exactly as they are
to prune_empty_scene_values. -/
def cleanVal : Val → Bool
  | .vdict es => cleanEntries es
  | .vlist vs => cleanItems vs
  | _ => true

/-- cleanVal on the entries of a dict. -/
def cleanEntries : List (String × Val) → Bool
  | [] => true
  | (_, v) :: rest => !isDiscardable v && cleanVal v && cleanEntries rest

/-- cleanVal on the items of a list. -/
def cleanItems : List Val → Bool
  | [] => true
  | v :: rest => !isDiscardable v && cleanVal v && cleanItems rest

end

mutual

/-- The reading of claim C10: no dict value and no list item at any
nesting depth, including depth reached through tuples, is None or an
empty container. -/
def deepClean : Val → Bool
  | .vdict es => deepCleanEntries es
  | .vlist vs => deepCleanItems vs
  | .vtup vs => deepCleanTup vs
  | _ => true

/-- deepClean on the entries of a dict. -/
def deepCleanEntries : List (String × Val) → Bool
  | [] => true
  | (_, v) :: rest => !isDiscardable v && deepClean v && deepCleanEntries rest

/-- deepClean on the items of a list. -/
def deepCleanItems : List Val → Bool
  | [] => true
  | v :: rest => !isDiscardable v && deepClean v && deepCleanItems rest

/-- deepClean descends through tuple items (the items themselves are not
dict values or list items, so only their contents are constrained). -/
def deepCleanTup : List Val → Bool
  | [] => true
  | v :: rest => deepClean v && deepCleanTup rest

end

/-- One scene record of the YAML document.  id and name are optional
because the Python code reads them with scene.get and a record may lack
either key; entities maps entity ids to attribute maps.  The code reads
entities with scene.get and an empty-dict default, which makes a missing
key behave exactly like an empty mapping, so entities is a plain list. -/
structure Scene where
  id : Option String
  name : Option String
  entities : List (String × List (String × Val))
deriving Repr

/-- Python scene.get with key id and default of the empty string. -/
def sceneKey (s : Scene) : String := s.id.getD ""

/-- Python scene.get with key name and default Unknown. -/
def sceneName (s : Scene) : String := s.name.getD "Unknown"

/-- One entry of the list returned by detect_duplicate_scene_ids: the
name and id of one affected record. -/
structure DupFinding where
  name : String
  id : String
deriving Repr, DecidableEq

/-- The record payload appended for one scene while grouping. -/
def sceneEntry (s : Scene) : DupFinding := ⟨sceneName s, sceneKey s⟩

/-- Appending a finding under its key in the insertion-ordered grouping
dict: this is one iteration of the defaultdict(list) append of
repairs.detect_duplicate_scene_ids. -/
def addToGroups :
    List (String × List DupFinding) → String → DupFinding →
    List (String × List DupFinding)
  | [], k, f => [(k, [f])]
  | (k2, fs) :: rest, k, f =>
    if k2 = k then (k2, fs ++ [f]) :: rest
    else (k2, fs) :: addToGroups rest k f

/-- The grouping pass of repairs.detect_duplicate_scene_ids over the
whole document. -/
def idCount (scenes : List Scene) : List (String × List DupFinding) :=
  scenes.foldl (fun gs s => addToGroups gs (sceneKey s) (sceneEntry s)) []

/-- repairs.detect_duplicate_scene_ids: group records by id (a missing id
defaults to the empty string) and collect the records of every group with
more than one member, in group insertion order. -/
def detect_duplicate_scene_ids (scenes : List Scene) : List DupFinding :=
  (idCount scenes).foldl
    (fun acc kg => if kg.2.length > 1 then acc ++ kg.2 else acc) []

/-- Python test value is None or value equals the empty string, used both
by the empty-attribute detector and by the cleanup loop. -/
def isEmptyVal : Val → Bool
  | .vnull => true
  | .vstr s => s = ""
  | _ => false

/-- One entry of the list returned by detect_empty_scene_attributes. -/
structure EmptyFinding where
  name : String
  id : String
  empty_count : Nat
deriving Repr, DecidableEq

/-- The counting loops of repairs.detect_empty_scene_attributes for one
record: one per attribute value, over every entity of the scene, that is
None or the empty string. -/
def sceneEmptyCount (s : Scene) : Nat :=
  s.entities.foldl
    (fun c e => e.2.foldl (fun c2 kv => if isEmptyVal kv.2 then c2 + 1 else c2) c)
    0

/-- repairs.detect_empty_scene_attributes: one finding, holding name, id
and the aggregate count, per record whose count is nonzero. -/
def detect_empty_scene_attributes (scenes : List Scene) : List EmptyFinding :=
  scenes.foldl
    (fun acc s =>
      if sceneEmptyCount s ≠ 0 then
        acc ++ [⟨sceneName s, sceneKey s, sceneEmptyCount s⟩]
      else acc)
    []

/-- The id-rewriting loop of async_fix_duplicate_scene_ids
(scene_repair_service.py).  ts k models the string produced by formatting
datetime.now().timestamp() to whole seconds at loop iteration k; the clock is an
external input, so it is a parameter, and calls within the same second
yield the same string.  The loop mutates the scene dicts in place, so the
returned list is the post-loop value of the document the caller holds and
the pre-loop value is destroyed.  Reading the id key of a record that
still lacks it raises KeyError, modelled as Except.error. -/
def fixScenesAux (ts : Nat → String) :
    Nat → List String → List Scene → Except Unit (List Scene)
  | _, _, [] => .ok []
  | k, used, s :: rest =>
    let sid := sceneKey s
    let s' := if sid ∈ used then { s with id := some (sid ++ "_" ++ ts k) } else s
    match s'.id with
    | none => .error ()
    | some i =>
      match fixScenesAux ts (k + 1) (i :: used) rest with
      | .error e => .error e
      | .ok rest' => .ok (s' :: rest')

/-- The whole rewriting pass, started with an empty used_ids set. -/
def fixScenes (ts : Nat → String) (scenes : List Scene) :
    Except Unit (List Scene) :=
  fixScenesAux ts 0 [] scenes

/-- Python del attrs[attr]: remove the binding of key k from the dict. -/
def delKey (attrs : List (String × Val)) (k : String) : List (String × Val) :=
  attrs.filter (fun kv => !(kv.1 == k))

/-- The inner loop of async_cleanup_empty_attributes: iterate over a
snapshot of the attribute items and delete from the live dict every key
whose value is None or the empty string.  The deletion happens in place,
through the same dict the scene and the caller reference. -/
def cleanupAttrsLoop :
    List (String × Val) → List (String × Val) → List (String × Val)
  | [], attrs => attrs
  | (k, v) :: rest, attrs =>
    if isEmptyVal v then cleanupAttrsLoop rest (delKey attrs k)
    else cleanupAttrsLoop rest attrs

/-- The cleanup loop of async_cleanup_empty_attributes for one record. -/
def cleanupScene (s : Scene) : Scene :=
  { s with entities := s.entities.map (fun e => (e.1, cleanupAttrsLoop e.2 e.2)) }

/-- The cleanup loop of async_cleanup_empty_attributes over the whole
document, mutating each scene in place. -/
def cleanupScenes (scenes : List Scene) : List Scene :=
  scenes.map cleanupScene

/-- The two files the repair services touch: the current content of the
scene file and, once _backup_file has run, the content of the backup
file. -/
structure FS where
  main : String
  backup : Option String
deriving Repr, DecidableEq

/-- Terminal outcomes of one service invocation.  noFindings is the early
return; committed is the success path; loadYamlFailure is a YAMLError
from the initial load; keyFailure is the KeyError from the id loop;
verifyYamlFailure is a YAMLError from the verification reload, re-raised
after the rollback; verifyReadFailure is an OSError while re-reading the
file during verification, which no except clause catches. -/
inductive RepairOutcome where
  | noFindings
  | committed
  | loadYamlFailure
  | keyFailure
  | verifyYamlFailure
  | verifyReadFailure
deriving Repr, DecidableEq

/-- scene_repair_service.async_fix_duplicate_scene_ids as a transition on
the file system.  parse and dump are yaml.load and yaml.dump, abstract
serialization parameters, with parse returning none when yaml.load raises
YAMLError.  verifyReadFails is true when the re-read of the file during
verification raises OSError.  Stages, exactly as in the source: load and
parse; detect duplicates and return early when there are none;
_backup_file, copying the current content next to the original; rewrite
the ids in place; write the dump of the mutated document; verify by
re-reading and re-parsing, and on YAMLError only, replace the scene file
by the backup (consuming the backup file) and re-raise. -/
def async_fix_duplicate_scene_ids
    (parse : String → Option (List Scene)) (dump : List Scene → String)
    (ts : Nat → String) (verifyReadFails : Bool) (fs : FS) :
    RepairOutcome × FS :=
  match parse fs.main with
  | none => (.loadYamlFailure, fs)
  | some scenes =>
    if detect_duplicate_scene_ids scenes = [] then (.noFindings, fs)
    else
      match fixScenes ts scenes with
      | .error _ => (.keyFailure, ⟨fs.main, some fs.main⟩)
      | .ok scenes2 =>
        if verifyReadFails then (.verifyReadFailure, ⟨dump scenes2, some fs.main⟩)
        else
          match parse (dump scenes2) with
          | none => (.verifyYamlFailure, ⟨fs.main, none⟩)
          | some _ => (.committed, ⟨dump scenes2, some fs.main⟩)

/-- scene_repair_service.async_cleanup_empty_attributes as a transition
on the file system, with the same stages as the duplicate-id service but
the empty-attribute detector and the in-place attribute cleanup, which
cannot raise. -/
def async_cleanup_empty_attributes
    (parse : String → Option (List Scene)) (dump : List Scene → String)
    (verifyReadFails : Bool) (fs : FS) : RepairOutcome × FS :=
  match parse fs.main with
  | none => (.loadYamlFailure, fs)
  | some scenes =>
    if detect_empty_scene_attributes scenes = [] then (.noFindings, fs)
    else
      if verifyReadFails then
        (.verifyReadFailure, ⟨dump (cleanupScenes scenes), some fs.main⟩)
      else
        match parse (dump (cleanupScenes scenes)) with
        | none => (.verifyYamlFailure, ⟨fs.main, none⟩)
        | some _ => (.committed, ⟨dump (cleanupScenes scenes), some fs.main⟩)

/-- Spec wording of stripEmptyAttributes (section 4.4): for every record
and every entity attribute map, remove exactly the keys whose value is
null or the empty string; entities and records themselves are kept. -/
def stripEmptyAttributesSpec (scenes : List Scene) : List Scene :=
  scenes.map fun s =>
    { s with
      entities :=
        s.entities.map (fun e => (e.1, e.2.filter (fun kv => !isEmptyVal kv.2))) }

/-- Spec wording of the per-record aggregate of findEmptyAttributes: the
number of attribute values equal to null or the empty string across all
entities of the record. -/
def sceneEmptyCountSpec (s : Scene) : Nat :=
  (s.entities.map (fun e => (e.2.filter (fun kv => isEmptyVal kv.2)).length)).sum

/-- Key insertion in first-occurrence order, as a Python dict does it. -/
def insertKey (ks : List String) (k : String) : List String :=
  if k ∈ ks then ks else ks ++ [k]

/-- The keys of the grouping dict of detect_duplicate_scene_ids, in
first-occurrence order. -/
def docKeys (scenes : List Scene) : List String :=
  scenes.foldl (fun ks s => insertKey ks (sceneKey s)) []

/-- All findings recorded under key k in a grouping structure. -/
def membersOf (gs : List (String × List DupFinding)) (k : String) :
    List DupFinding :=
  ((gs.filter (fun kg => kg.1 = k)).map (fun kg => kg.2)).flatten

/-- The replacement id generated at loop iteration k of the id-rewriting
pass: the original defaulted id of the k-th record, an underscore, and
the timestamp string of that iteration. -/
def genAt (ts : Nat → String) (scenes : List Scene) (k : Nat) : String :=
  sceneKey (scenes.getD k ⟨none, none, []⟩) ++ "_" ++ ts k

/-- Well-formedness of the association-list model of one record: Python
dicts cannot hold a key twice, so each attribute map has distinct keys. -/
def sceneWF (s : Scene) : Prop :=
  ∀ e ∈ s.entities, (e.2.map Prod.fst).Nodup

instance (s : Scene) : Decidable (sceneWF s) := by
  unfold sceneWF; infer_instance

/-- Well-formedness of a whole document. -/
def docWF (scenes : List Scene) : Prop :=
  ∀ s ∈ scenes, sceneWF s

instance (scenes : List Scene) : Decidable (docWF scenes) := by
  unfold docWF; infer_instance

/-- Scenario A record with name A and id s1. -/
def sceneA : Scene := ⟨some "s1", some "A", []⟩

/-- Scenario A record with name B and the same id s1. -/
def sceneB : Scene := ⟨some "s1", some "B", []⟩

/-- A document with one duplicated id. -/
def dupPair : List Scene := [sceneA, sceneB]

/-- Three records sharing one id, for the same-second collision run. -/
def tripleA : List Scene :=
  [⟨some "a", some "A", []⟩, ⟨some "a", some "B", []⟩, ⟨some "a", some "C", []⟩]

/-- A clock stuck within one second: every loop iteration formats the
same whole-second timestamp. -/
def tsConst : Nat → String := fun _ => "100"

/-- A clock advancing between iterations. -/
def tsStep : Nat → String := fun k => "t" ++ Nat.repr k

/-- Scenario B attribute map with a null and an empty-string value. -/
def lightAttrs : List (String × Val) :=
  [("brightness", .vnull), ("color", .vstr "")]

/-- Scenario B record. -/
def sceneBx : Scene := ⟨some "s3", some "X", [("light.x", lightAttrs)]⟩

/-- A record with id missing entirely, as written YAML may have. -/
def sceneNoId : Scene := ⟨none, some "C", []⟩

/-- A document with a duplicated id and a later record lacking the id
key, while no earlier record has the empty string as defaulted id. -/
def missingIdDoc : List Scene :=
  [⟨some "a", some "A", []⟩, ⟨some "a", some "B", []⟩, sceneNoId]

/-- The C10 input: a dict whose value is a nonempty tuple holding a dict
with a null value. -/
def tupExample : Val := .vdict [("k", .vtup [.vdict [("a", .vnull)]])]

/-- The cumulative effect of the deletions of one cleanup pass on key k:
some snapshot entry with key k held a value that is None or empty. -/
def delHit (snapshot : List (String × Val)) (k : String) : Bool :=
  snapshot.any (fun kw => kw.1 == k && isEmptyVal kw.2)

/-- The value of the caller's document after the id-rewriting loop runs
on tripleA under the stuck clock. -/
def fixedTriple : List Scene :=
  [⟨some "a", some "A", []⟩, ⟨some "a_100", some "B", []⟩,
   ⟨some "a_100", some "C", []⟩]

/-- The value of the caller's document after the id-rewriting loop runs
on dupPair under the advancing clock. -/
def fixedPair : List Scene :=
  [⟨some "s1", some "A", []⟩, ⟨some "s1_t1", some "B", []⟩]

/-- Initial file-system state for concrete pipeline runs. -/
def fsOrig : FS := ⟨"orig", none⟩

/-- A parser recognizing only the original content, as the document with
the duplicated id. -/
def parseDup : String → Option (List Scene) :=
  fun s => if s = "orig" then some dupPair else none

/-- A parser recognizing only the original content, as the Scenario B
document. -/
def parseBx : String → Option (List Scene) :=
  fun s => if s = "orig" then some [sceneBx] else none

/-- A parser recognizing only the original content, as the document with
the missing id. -/
def parseMissing : String → Option (List Scene) :=
  fun s => if s = "orig" then some missingIdDoc else none

/-- A parser accepting everything, for committed runs. -/
def parseTotal : String → Option (List Scene) := fun _ => some [sceneBx]

/-- A serializer whose output the recognizing parsers reject, standing
for a corrupted write. -/
def dumpBad : List Scene → String := fun _ => "bad"

/-- A serializer with a fixed fresh output. -/
def dumpConst : List Scene → String := fun _ => "newdoc"

theorem beq_string_comm (a b : String) : (a == b) = (b == a) := by
  by_cases h : a = b
  · subst h; rfl
  · have h2 : ¬b = a := fun hh => h hh.symm
    simp [h, h2]

theorem cleanupAttrsLoop_eq_filter (s a : List (String × Val)) :
    cleanupAttrsLoop s a = a.filter (fun kv => !delHit s kv.1) := by
  induction s generalizing a with
  | nil =>
    simp [cleanupAttrsLoop, delHit]
  | cons hd tl ih =>
    obtain ⟨k, v⟩ := hd
    by_cases hv : isEmptyVal v
    · have hstep : cleanupAttrsLoop ((k, v) :: tl) a = cleanupAttrsLoop tl (delKey a k) := by
        simp [cleanupAttrsLoop, hv]
      rw [hstep, ih, delKey, List.filter_filter]
      refine List.filter_congr ?_
      intro kv _
      simp [delHit, hv, beq_string_comm k kv.1, Bool.and_comm]
    · have hstep : cleanupAttrsLoop ((k, v) :: tl) a = cleanupAttrsLoop tl a := by
        simp [cleanupAttrsLoop, hv]
      rw [hstep, ih]
      refine List.filter_congr ?_
      intro kv _
      simp [delHit, hv]

theorem mem_cleanupAttrs_not_empty (a : List (String × Val)) :
    ∀ kv ∈ cleanupAttrsLoop a a, isEmptyVal kv.2 = false := by
  intro kv hkv
  rw [cleanupAttrsLoop_eq_filter] at hkv
  have h2 := List.mem_filter.1 hkv
  by_contra hne
  have hempty : isEmptyVal kv.2 = true := by
    revert hne; cases isEmptyVal kv.2 <;> simp
  have hhit : delHit a kv.1 = true := by
    simp only [delHit, List.any_eq_true]
    exact ⟨kv, h2.1, by simp [hempty]⟩
  rw [hhit] at h2
  simp at h2

theorem cleanupAttrsLoop_idem (a : List (String × Val)) :
    cleanupAttrsLoop (cleanupAttrsLoop a a) (cleanupAttrsLoop a a)
      = cleanupAttrsLoop a a := by
  rw [cleanupAttrsLoop_eq_filter (cleanupAttrsLoop a a), List.filter_eq_self]
  intro kv hkv
  have hnohit : delHit (cleanupAttrsLoop a a) kv.1 = false := by
    rw [delHit, List.any_eq_false]
    intro kw hkw
    simp [mem_cleanupAttrs_not_empty a kw hkw]
  simp [hnohit]

theorem cleanupScene_idem (s : Scene) :
    cleanupScene (cleanupScene s) = cleanupScene s := by
  unfold cleanupScene
  simp only [List.map_map]
  congr 1
  apply List.map_congr_left
  intro e _
  simp [Function.comp, cleanupAttrsLoop_idem]

theorem key_unique_delHit {a : List (String × Val)}
    (h : (a.map Prod.fst).Nodup) :
    ∀ kv ∈ a, delHit a kv.1 = isEmptyVal kv.2 := by
  intro kv hkv
  by_cases he : isEmptyVal kv.2
  · rw [he]
    simp only [delHit, List.any_eq_true]
    exact ⟨kv, hkv, by simp [he]⟩
  · have he2 : isEmptyVal kv.2 = false := by
      revert he; cases isEmptyVal kv.2 <;> simp
    rw [he2, delHit, List.any_eq_false]
    intro kw hkw
    by_cases hk : kw.1 = kv.1
    · have : kw = kv := List.inj_on_of_nodup_map h hkw hkv hk
      subst this
      simp [he2]
    · simp [hk]

theorem cleanupScene_spec (s : Scene) (h : sceneWF s) :
    cleanupScene s =
      { s with
        entities :=
          s.entities.map
            (fun e => (e.1, e.2.filter (fun kv => !isEmptyVal kv.2))) } := by
  unfold cleanupScene
  congr 1
  apply List.map_congr_left
  intro e he
  have : cleanupAttrsLoop e.2 e.2 = e.2.filter (fun kv => !isEmptyVal kv.2) := by
    rw [cleanupAttrsLoop_eq_filter]
    refine List.filter_congr ?_
    intro kv hkv
    rw [key_unique_delHit (h e he) kv hkv]
  rw [this]

theorem foldl_count_eq (l : List (String × Val)) :
    ∀ c : Nat,
      l.foldl (fun c2 kv => if isEmptyVal kv.2 then c2 + 1 else c2) c
        = c + (l.filter (fun kv => isEmptyVal kv.2)).length := by
  induction l with
  | nil => intro c; simp
  | cons hd tl ih =>
    intro c
    by_cases hv : isEmptyVal hd.2
    · simp [List.filter_cons, hv, ih]
      omega
    · simp [List.filter_cons, hv, ih]

theorem entities_count_eq (ents : List (String × List (String × Val))) :
    ∀ c : Nat,
      ents.foldl
          (fun c e =>
            e.2.foldl (fun c2 kv => if isEmptyVal kv.2 then c2 + 1 else c2) c)
          c
        = c + (ents.map
            (fun e => (e.2.filter (fun kv => isEmptyVal kv.2)).length)).sum := by
  induction ents with
  | nil => intro c; simp
  | cons hd tl ih =>
    intro c
    rw [List.foldl_cons, foldl_count_eq, ih]
    simp only [List.map_cons, List.sum_cons]
    omega

theorem sceneEmptyCount_eq_spec (s : Scene) :
    sceneEmptyCount s = sceneEmptyCountSpec s := by
  unfold sceneEmptyCount sceneEmptyCountSpec
  rw [entities_count_eq]
  omega

theorem foldl_append_one {α β : Type} (p : α → Prop) [DecidablePred p]
    (f : α → β) (l : List α) :
    ∀ acc : List β,
      l.foldl (fun acc s => if p s then acc ++ [f s] else acc) acc
        = acc ++ (l.filter (fun s => decide (p s))).map f := by
  induction l with
  | nil => intro acc; simp
  | cons hd tl ih =>
    intro acc
    by_cases hp : p hd <;> simp [List.filter_cons, hp, ih]

theorem detect_empty_eq_filter_map (scenes : List Scene) :
    detect_empty_scene_attributes scenes
      = (scenes.filter (fun s => decide (sceneEmptyCountSpec s ≠ 0))).map
          (fun s => ⟨sceneName s, sceneKey s, sceneEmptyCountSpec s⟩) := by
  unfold detect_empty_scene_attributes
  have h := foldl_append_one (fun s : Scene => sceneEmptyCount s ≠ 0)
      (fun s : Scene =>
        (⟨sceneName s, sceneKey s, sceneEmptyCount s⟩ : EmptyFinding))
      scenes []
  rw [h]
  simp only [List.nil_append]
  have hfil :
      scenes.filter (fun s => decide (sceneEmptyCount s ≠ 0))
        = scenes.filter (fun s => decide (sceneEmptyCountSpec s ≠ 0)) := by
    refine List.filter_congr ?_
    intro s _
    rw [sceneEmptyCount_eq_spec]
  rw [hfil]
  refine List.map_congr_left ?_
  intro s _
  rw [sceneEmptyCount_eq_spec]

theorem membersOf_nil (k : String) : membersOf [] k = [] := rfl

theorem membersOf_cons (hd : String × List DupFinding)
    (tl : List (String × List DupFinding)) (k : String) :
    membersOf (hd :: tl) k = (if hd.1 = k then hd.2 else []) ++ membersOf tl k := by
  unfold membersOf
  rw [List.filter_cons]
  by_cases h : hd.1 = k <;> simp [h]

theorem membersOf_not_mem (gs : List (String × List DupFinding)) (k : String)
    (h : k ∉ gs.map Prod.fst) : membersOf gs k = [] := by
  induction gs with
  | nil => rfl
  | cons hd tl ih =>
    have hne : hd.1 ≠ k := by
      intro hh
      exact h (by rw [List.map_cons, ← hh]; exact List.mem_cons_self _ _)
    rw [membersOf_cons, if_neg hne, List.nil_append]
    exact ih (fun hm => h (by rw [List.map_cons]; exact List.mem_cons_of_mem _ hm))

theorem addToGroups_keys (gs : List (String × List DupFinding)) (k : String)
    (f : DupFinding) :
    (addToGroups gs k f).map Prod.fst = insertKey (gs.map Prod.fst) k := by
  induction gs with
  | nil => simp [addToGroups, insertKey]
  | cons hd tl ih =>
    obtain ⟨k2, fs⟩ := hd
    by_cases hk : k2 = k
    · subst hk
      simp [addToGroups, insertKey]
    · rw [show addToGroups ((k2, fs) :: tl) k f = (k2, fs) :: addToGroups tl k f from
        by simp [addToGroups, hk]]
      rw [List.map_cons, ih, List.map_cons]
      unfold insertKey
      by_cases hmem : k ∈ tl.map Prod.fst
      · rw [if_pos hmem, if_pos (List.mem_cons_of_mem _ hmem)]
      · rw [if_neg hmem, if_neg ?_, List.cons_append]
        intro hc
        rcases List.mem_cons.1 hc with h | h
        · exact hk h.symm
        · exact hmem h

theorem insertKey_nodup (ks : List String) (k : String) (h : ks.Nodup) :
    (insertKey ks k).Nodup := by
  unfold insertKey
  by_cases hm : k ∈ ks
  · simpa [hm] using h
  · simp [hm, List.nodup_append, h, List.disjoint_singleton]

theorem keys_nodup_addToGroups {gs : List (String × List DupFinding)}
    {k : String} {f : DupFinding} (h : (gs.map Prod.fst).Nodup) :
    ((addToGroups gs k f).map Prod.fst).Nodup := by
  rw [addToGroups_keys]
  exact insertKey_nodup _ _ h

theorem membersOf_addToGroups (gs : List (String × List DupFinding))
    (k0 : String) (f : DupFinding) (k : String)
    (h : (gs.map Prod.fst).Nodup) :
    membersOf (addToGroups gs k0 f) k
      = membersOf gs k ++ (if k0 = k then [f] else []) := by
  induction gs with
  | nil =>
    by_cases hk : k0 = k <;> simp [addToGroups, membersOf_cons, membersOf_nil, hk]
  | cons hd tl ih =>
    obtain ⟨k2, fs⟩ := hd
    rw [List.map_cons] at h
    have h1 : k2 ∉ tl.map Prod.fst := (List.nodup_cons.1 h).1
    have h2 : (tl.map Prod.fst).Nodup := (List.nodup_cons.1 h).2
    by_cases hk2 : k2 = k0
    · subst hk2
      rw [show addToGroups ((k2, fs) :: tl) k2 f = (k2, fs ++ [f]) :: tl from
        by simp [addToGroups]]
      by_cases hk : k2 = k
      · subst hk
        rw [membersOf_cons, membersOf_cons]
        simp [membersOf_not_mem tl k2 h1]
      · rw [membersOf_cons, membersOf_cons]
        simp [hk]
    · rw [show addToGroups ((k2, fs) :: tl) k0 f
          = (k2, fs) :: addToGroups tl k0 f from by simp [addToGroups, hk2]]
      rw [membersOf_cons, membersOf_cons, ih h2, List.append_assoc]

theorem idCount_aux_keys (scenes : List Scene) :
    ∀ gs : List (String × List DupFinding),
      ((scenes.foldl (fun gs s => addToGroups gs (sceneKey s) (sceneEntry s)) gs).map
          Prod.fst)
        = scenes.foldl (fun ks s => insertKey ks (sceneKey s)) (gs.map Prod.fst) := by
  induction scenes with
  | nil => intro gs; rfl
  | cons s rest ih =>
    intro gs
    rw [List.foldl_cons, List.foldl_cons, ih, addToGroups_keys]

theorem idCount_keys (scenes : List Scene) :
    (idCount scenes).map Prod.fst = docKeys scenes :=
  idCount_aux_keys scenes []

theorem idCount_aux_nodup (scenes : List Scene) :
    ∀ gs : List (String × List DupFinding), (gs.map Prod.fst).Nodup →
      ((scenes.foldl (fun gs s => addToGroups gs (sceneKey s) (sceneEntry s)) gs).map
          Prod.fst).Nodup := by
  induction scenes with
  | nil => intro gs h; exact h
  | cons s rest ih =>
    intro gs h
    rw [List.foldl_cons]
    exact ih _ (keys_nodup_addToGroups h)

theorem idCount_keys_nodup (scenes : List Scene) :
    ((idCount scenes).map Prod.fst).Nodup :=
  idCount_aux_nodup scenes [] (by simp)

theorem addToGroups_nonempty (gs : List (String × List DupFinding)) (k : String)
    (f : DupFinding) (h : ∀ kg ∈ gs, kg.2 ≠ []) :
    ∀ kg ∈ addToGroups gs k f, kg.2 ≠ [] := by
  induction gs with
  | nil =>
    intro kg hkg
    simp [addToGroups] at hkg
    simp [hkg]
  | cons hd tl ih =>
    obtain ⟨k2, fs⟩ := hd
    by_cases hk : k2 = k
    · subst hk
      intro kg hkg
      rw [show addToGroups ((k2, fs) :: tl) k2 f = (k2, fs ++ [f]) :: tl from
        by simp [addToGroups]] at hkg
      rcases List.mem_cons.1 hkg with rfl | hm
      · simp
      · exact h kg (List.mem_cons_of_mem _ hm)
    · intro kg hkg
      rw [show addToGroups ((k2, fs) :: tl) k f = (k2, fs) :: addToGroups tl k f from
        by simp [addToGroups, hk]] at hkg
      rcases List.mem_cons.1 hkg with rfl | hm
      · exact h (k2, fs) (List.mem_cons_self _ _)
      · exact ih (fun kg2 hkg2 => h kg2 (List.mem_cons_of_mem _ hkg2)) kg hm

theorem idCount_aux_nonempty (scenes : List Scene) :
    ∀ gs : List (String × List DupFinding), (∀ kg ∈ gs, kg.2 ≠ []) →
      ∀ kg ∈ scenes.foldl (fun gs s => addToGroups gs (sceneKey s) (sceneEntry s)) gs,
        kg.2 ≠ [] := by
  induction scenes with
  | nil => intro gs h; exact h
  | cons s rest ih =>
    intro gs h
    rw [List.foldl_cons]
    exact ih _ (addToGroups_nonempty _ _ _ h)

theorem idCount_nonempty (scenes : List Scene) :
    ∀ kg ∈ idCount scenes, kg.2 ≠ [] :=
  idCount_aux_nonempty scenes [] (by simp)

theorem mem_membersOf_eq (gs : List (String × List DupFinding))
    (h : (gs.map Prod.fst).Nodup) (k : String) (fs : List DupFinding)
    (hm : (k, fs) ∈ gs) : membersOf gs k = fs := by
  induction gs with
  | nil => cases hm
  | cons hd tl ih =>
    rw [List.map_cons] at h
    have h1 : hd.1 ∉ tl.map Prod.fst := (List.nodup_cons.1 h).1
    have h2 : (tl.map Prod.fst).Nodup := (List.nodup_cons.1 h).2
    rcases List.mem_cons.1 hm with rfl | hmem
    · rw [membersOf_cons, if_pos rfl, membersOf_not_mem tl k h1, List.append_nil]
    · have hne : hd.1 ≠ k := by
        intro hh
        exact h1 (by rw [hh]; exact List.mem_map_of_mem Prod.fst hmem)
      rw [membersOf_cons, if_neg hne, List.nil_append]
      exact ih h2 hmem

theorem idCount_aux_members (scenes : List Scene) (k : String) :
    ∀ gs : List (String × List DupFinding), (gs.map Prod.fst).Nodup →
      membersOf
          (scenes.foldl (fun gs s => addToGroups gs (sceneKey s) (sceneEntry s)) gs) k
        = membersOf gs k
            ++ (scenes.filter (fun s => decide (sceneKey s = k))).map sceneEntry := by
  induction scenes with
  | nil => intro gs h; simp
  | cons s rest ih =>
    intro gs h
    rw [List.foldl_cons, ih _ (keys_nodup_addToGroups h),
      membersOf_addToGroups _ _ _ _ h, List.filter_cons]
    by_cases hk : sceneKey s = k
    · simp [hk, List.append_assoc]
    · simp [hk]

theorem membersOf_idCount (scenes : List Scene) (k : String) :
    membersOf (idCount scenes) k
      = (scenes.filter (fun s => decide (sceneKey s = k))).map sceneEntry := by
  have h := idCount_aux_members scenes k [] (by simp)
  simpa [membersOf_nil] using h

theorem detect_foldl (gs : List (String × List DupFinding)) :
    ∀ acc : List DupFinding,
      gs.foldl (fun acc kg => if kg.2.length > 1 then acc ++ kg.2 else acc) acc
        = acc ++ ((gs.filter (fun kg => decide (kg.2.length > 1))).map
            (fun kg => kg.2)).flatten := by
  induction gs with
  | nil => intro acc; simp
  | cons hd tl ih =>
    intro acc
    by_cases hlen : hd.2.length > 1 <;>
      simp [List.filter_cons, hlen, ih, List.append_assoc]

theorem detect_eq_flatten (scenes : List Scene) :
    detect_duplicate_scene_ids scenes
      = (((idCount scenes).filter (fun kg => decide (kg.2.length > 1))).map
          (fun kg => kg.2)).flatten := by
  unfold detect_duplicate_scene_ids
  rw [detect_foldl]
  simp

theorem filter_length_count (scenes : List Scene) (k : String) :
    (scenes.filter (fun s => decide (sceneKey s = k))).length
      = (scenes.map sceneKey).count k := by
  induction scenes with
  | nil => simp
  | cons s rest ih =>
    by_cases h : sceneKey s = k <;>
      simp [List.filter_cons, h, List.count_cons, ih]

theorem detect_nil_iff (scenes : List Scene) :
    detect_duplicate_scene_ids scenes = [] ↔ (scenes.map sceneKey).Nodup := by
  rw [detect_eq_flatten, List.flatten_eq_nil_iff, List.nodup_iff_count_le_one]
  constructor
  · intro h a
    have hlen : (membersOf (idCount scenes) a).length = (scenes.map sceneKey).count a := by
      rw [membersOf_idCount, List.length_map, filter_length_count]
    rw [← hlen]
    by_cases hmem : a ∈ (idCount scenes).map Prod.fst
    · obtain ⟨kg, hkg, hfst⟩ := List.mem_map.1 hmem
      have hpair : (a, kg.2) ∈ idCount scenes := by
        rw [← hfst]
        simpa using hkg
      rw [mem_membersOf_eq _ (idCount_keys_nodup scenes) _ _ hpair]
      by_contra hlt
      have hgt : kg.2.length > 1 := by omega
      have hnil : kg.2 = [] := by
        refine h kg.2 ?_
        refine List.mem_map_of_mem _ ?_
        rw [List.mem_filter]
        exact ⟨hkg, by simp [hgt]⟩
      rw [hnil] at hgt
      simp at hgt
    · rw [membersOf_not_mem _ _ hmem]
      simp
  · intro h l hl
    obtain ⟨kg, hkgf, rfl⟩ := List.mem_map.1 hl
    have hkg2 := List.mem_filter.1 hkgf
    have hpair : (kg.1, kg.2) ∈ idCount scenes := by simpa using hkg2.1
    have hmem : membersOf (idCount scenes) kg.1 = kg.2 :=
      mem_membersOf_eq _ (idCount_keys_nodup scenes) _ _ hpair
    have hcount := h kg.1
    have hlen : (membersOf (idCount scenes) kg.1).length
        = (scenes.map sceneKey).count kg.1 := by
      rw [membersOf_idCount, List.length_map, filter_length_count]
    rw [hmem] at hlen
    have hgt : kg.2.length > 1 := by simpa using hkg2.2
    omega

theorem append_underscore_ne (a b : String) : a ++ "_" ++ b ≠ "" := by
  intro h
  have hlen := congrArg String.length h
  rw [String.length_append, String.length_append] at hlen
  have h1 : ("_" : String).length = 1 := rfl
  have h0 : ("" : String).length = 0 := rfl
  rw [h1, h0] at hlen
  omega

theorem fixAux_missing_id (ts : Nat → String) :
    ∀ (front : List Scene) (s : Scene) (back : List Scene) (k : Nat)
      (used : List String),
      s.id = none → (∀ t ∈ front, sceneKey t ≠ "") → "" ∉ used →
      fixScenesAux ts k used (front ++ s :: back) = .error () := by
  intro front
  induction front with
  | nil =>
    intro s back k used hid hf hu
    have hsid : sceneKey s = "" := by simp [sceneKey, hid]
    simp [fixScenesAux, hsid, hu, hid]
  | cons t front ih =>
    intro s back k used hid hf hu
    have ht : sceneKey t ≠ "" := hf t (List.mem_cons_self _ _)
    rw [List.cons_append]
    by_cases hmem : sceneKey t ∈ used
    · have hrec := ih s back (k + 1) ((sceneKey t ++ "_" ++ ts k) :: used) hid
        (fun t2 ht2 => hf t2 (List.mem_cons_of_mem _ ht2))
        (by
          intro hc
          rcases List.mem_cons.1 hc with hc | hc
          · exact append_underscore_ne _ _ hc.symm
          · exact hu hc)
      simp [fixScenesAux, hmem, hrec]
    · cases hts : t.id with
      | none => exact absurd (by simp [sceneKey, hts]) ht
      | some x =>
        have hxne : x ≠ "" := by
          intro hx
          exact ht (by simp [sceneKey, hts, hx])
        have hrec := ih s back (k + 1) (x :: used) hid
          (fun t2 ht2 => hf t2 (List.mem_cons_of_mem _ ht2))
          (by
            intro hc
            rcases List.mem_cons.1 hc with hc | hc
            · exact hxne hc.symm
            · exact hu hc)
        simp [fixScenesAux, hmem, hts, hrec]

theorem fixAux_fresh (ts : Nat → String) (doc : List Scene)
    (HA : ∀ m, m < doc.length → genAt ts doc m ∉ doc.map sceneKey)
    (HB : ∀ m, m < doc.length → ∀ m2, m2 < doc.length → m ≠ m2 →
      genAt ts doc m ≠ genAt ts doc m2) :
    ∀ (suf pre : List Scene) (used : List String) (out : List Scene),
      doc = pre ++ suf →
      (∀ u ∈ used, u ∈ doc.map sceneKey ∨ ∃ m, m < pre.length ∧ u = genAt ts doc m) →
      fixScenesAux ts pre.length used suf = .ok out →
      (out.map sceneKey).Nodup ∧ ∀ u ∈ out.map sceneKey, u ∉ used := by
  intro suf
  induction suf with
  | nil =>
    intro pre used out hdoc hused hrun
    simp [fixScenesAux] at hrun
    subst hrun
    simp
  | cons s rest ih =>
    intro pre used out hdoc hused hrun
    have hdlen : pre.length < doc.length := by
      rw [hdoc, List.length_append, List.length_cons]
      omega
    have hget : doc.getD pre.length ⟨none, none, []⟩ = s := by
      rw [hdoc, List.getD_append_right pre (s :: rest) _ _ (le_refl _)]
      simp
    have hpre2 : doc = (pre ++ [s]) ++ rest := by rw [hdoc]; simp
    have hsmem : s ∈ doc := by
      rw [hdoc]
      exact List.mem_append_right _ (List.mem_cons_self _ _)
    by_cases hmem : sceneKey s ∈ used
    · have hgen : genAt ts doc pre.length = sceneKey s ++ "_" ++ ts pre.length := by
        rw [genAt, hget]
      simp only [fixScenesAux] at hrun
      rw [if_pos hmem] at hrun
      simp only [Option.some.injEq] at hrun
      cases hrec : fixScenesAux ts (pre.length + 1)
          ((sceneKey s ++ "_" ++ ts pre.length) :: used) rest with
      | error e => rw [hrec] at hrun; cases hrun
      | ok rest2 =>
        rw [hrec] at hrun
        have hout : out = { s with id := some (sceneKey s ++ "_" ++ ts pre.length) } :: rest2 := by
          cases hrun
          rfl
        subst hout
        have hused2 : ∀ u ∈ (sceneKey s ++ "_" ++ ts pre.length) :: used,
            u ∈ doc.map sceneKey ∨ ∃ m, m < (pre ++ [s]).length ∧ u = genAt ts doc m := by
          intro u hu
          rcases List.mem_cons.1 hu with rfl | hu2
          · right
            exact ⟨pre.length, by simp, hgen.symm⟩
          · rcases hused u hu2 with h | ⟨m, hm, hval⟩
            · left; exact h
            · right
              refine ⟨m, ?_, hval⟩
              rw [List.length_append, List.length_cons, List.length_nil]
              omega
        have hih := ih (pre ++ [s]) ((sceneKey s ++ "_" ++ ts pre.length) :: used) rest2
          hpre2 hused2 (by rw [List.length_append, List.length_cons, List.length_nil]; exact hrec)
        obtain ⟨hnodup, hnotin⟩ := hih
        have hkey : sceneKey { s with id := some (sceneKey s ++ "_" ++ ts pre.length) }
            = sceneKey s ++ "_" ++ ts pre.length := by
          simp [sceneKey]
        have hgnot : (sceneKey s ++ "_" ++ ts pre.length) ∉ used := by
          intro hw
          rcases hused _ hw with h | ⟨m, hm, hval⟩
          · exact HA pre.length hdlen (by rw [hgen]; exact h)
          · exact HB m (by omega) pre.length hdlen (by omega) (by rw [← hval, hgen])
        constructor
        · rw [List.map_cons, hkey, List.nodup_cons]
          refine ⟨?_, hnodup⟩
          intro hbad
          exact hnotin _ hbad (List.mem_cons_self _ _)
        · intro u hu
          rw [List.map_cons, hkey] at hu
          rcases List.mem_cons.1 hu with rfl | hu2
          · exact hgnot
          · intro hw
            exact hnotin u hu2 (List.mem_cons_of_mem _ hw)
    · cases hsid : s.id with
      | none =>
        rw [show fixScenesAux ts pre.length used (s :: rest) = .error () from by
          simp [fixScenesAux, hmem, hsid]] at hrun
        cases hrun
      | some x =>
        have hkeyx : sceneKey s = x := by simp [sceneKey, hsid]
        simp only [fixScenesAux] at hrun
        rw [if_neg hmem, hsid] at hrun
        have hrun2 :
            (match fixScenesAux ts (pre.length + 1) (x :: used) rest with
              | Except.error e => Except.error e
              | Except.ok rest2 => Except.ok (s :: rest2)) = Except.ok out := hrun
        cases hrec : fixScenesAux ts (pre.length + 1) (x :: used) rest with
        | error e => rw [hrec] at hrun2; cases hrun2
        | ok rest2 =>
          rw [hrec] at hrun2
          replace hrun := hrun2
          have hout : out = s :: rest2 := by
            cases hrun
            rfl
          subst hout
          have hused2 : ∀ u ∈ x :: used,
              u ∈ doc.map sceneKey ∨ ∃ m, m < (pre ++ [s]).length ∧ u = genAt ts doc m := by
            intro u hu
            rcases List.mem_cons.1 hu with rfl | hu2
            · left
              rw [← hkeyx]
              exact List.mem_map_of_mem sceneKey hsmem
            · rcases hused u hu2 with h | ⟨m, hm, hval⟩
              · left; exact h
              · right
                refine ⟨m, ?_, hval⟩
                rw [List.length_append, List.length_cons, List.length_nil]
                omega
          have hih := ih (pre ++ [s]) (x :: used) rest2 hpre2 hused2
            (by rw [List.length_append, List.length_cons, List.length_nil]; exact hrec)
          obtain ⟨hnodup, hnotin⟩ := hih
          constructor
          · rw [List.map_cons, hkeyx, List.nodup_cons]
            refine ⟨?_, hnodup⟩
            intro hbad
            exact hnotin _ hbad (List.mem_cons_self _ _)
          · intro u hu
            rw [List.map_cons, hkeyx] at hu
            rcases List.mem_cons.1 hu with rfl | hu2
            · rw [← hkeyx]; exact hmem
            · intro hw
              exact hnotin u hu2 (List.mem_cons_of_mem _ hw)

theorem fix_fresh_nodup (ts : Nat → String) (scenes out : List Scene)
    (HA : ∀ m, m < scenes.length → genAt ts scenes m ∉ scenes.map sceneKey)
    (HB : ∀ m, m < scenes.length → ∀ m2, m2 < scenes.length → m ≠ m2 →
      genAt ts scenes m ≠ genAt ts scenes m2)
    (hrun : fixScenes ts scenes = .ok out) :
    (out.map sceneKey).Nodup ∧ detect_duplicate_scene_ids out = [] := by
  have h := fixAux_fresh ts scenes HA HB scenes [] [] out rfl (by simp) hrun
  exact ⟨h.1, (detect_nil_iff out).2 h.1⟩

mutual

theorem cleanVal_prune (v : Val) : cleanVal (prune_empty_scene_values v) = true := by
  cases v with
  | vdict es =>
    have h := cleanEntries_pruneEntries es
    simpa [prune_empty_scene_values, cleanVal] using h
  | vlist vs =>
    have h := cleanItems_pruneItems vs
    simpa [prune_empty_scene_values, cleanVal] using h
  | vnull => rfl
  | vstr s => rfl
  | vint n => rfl
  | vbool b => rfl
  | vtup vs => rfl

theorem cleanEntries_pruneEntries (es : List (String × Val)) :
    cleanEntries (pruneEntries es) = true := by
  cases es with
  | nil => rfl
  | cons hd rest =>
    obtain ⟨k, v⟩ := hd
    by_cases h1 : isNone v
    · have h := cleanEntries_pruneEntries rest
      simpa [pruneEntries, h1] using h
    · by_cases h2 : isDiscardable (prune_empty_scene_values v)
      · have h := cleanEntries_pruneEntries rest
        simpa [pruneEntries, h1, h2] using h
      · have h := cleanEntries_pruneEntries rest
        have hv := cleanVal_prune v
        simp [pruneEntries, h1, h2, cleanEntries, h, hv]

theorem cleanItems_pruneItems (vs : List Val) :
    cleanItems (pruneItems vs) = true := by
  cases vs with
  | nil => rfl
  | cons v rest =>
    by_cases h1 : isNone v
    · have h := cleanItems_pruneItems rest
      simpa [pruneItems, h1] using h
    · by_cases h2 : isDiscardable (prune_empty_scene_values v)
      · have h := cleanItems_pruneItems rest
        simpa [pruneItems, h1, h2] using h
      · have h := cleanItems_pruneItems rest
        have hv := cleanVal_prune v
        simp [pruneItems, h1, h2, cleanItems, h, hv]

end

theorem pruneEntries_keeps_empty_string (es : List (String × Val)) (k : String)
    (h : (k, Val.vstr "") ∈ es) : (k, Val.vstr "") ∈ pruneEntries es := by
  induction es with
  | nil => cases h
  | cons hd rest ih =>
    obtain ⟨k2, v2⟩ := hd
    rcases List.mem_cons.1 h with heq | hmem
    · injection heq with h1 h2
      subst h1
      subst h2
      simp [pruneEntries, isNone, prune_empty_scene_values, isDiscardable]
    · by_cases h1 : isNone v2
      · simpa [pruneEntries, h1] using ih hmem
      · by_cases h2 : isDiscardable (prune_empty_scene_values v2)
        · simpa [pruneEntries, h1, h2] using ih hmem
        · simp only [pruneEntries, h1, h2, if_false, if_neg]
          exact List.mem_cons_of_mem _ (ih hmem)

theorem pruneItems_keeps_empty_string (vs : List Val)
    (h : Val.vstr "" ∈ vs) : Val.vstr "" ∈ pruneItems vs := by
  induction vs with
  | nil => cases h
  | cons v rest ih =>
    rcases List.mem_cons.1 h with heq | hmem
    · subst heq
      simp [pruneItems, isNone, prune_empty_scene_values, isDiscardable]
    · by_cases h1 : isNone v
      · simpa [pruneItems, h1] using ih hmem
      · by_cases h2 : isDiscardable (prune_empty_scene_values v)
        · simpa [pruneItems, h1, h2] using ih hmem
        · simp only [pruneItems, h1, h2, if_false, if_neg]
          exact List.mem_cons_of_mem _ (ih hmem)

theorem fix_run_total (parse : String → Option (List Scene))
    (dump : List Scene → String) (ts : Nat → String) (vrf : Bool) (fs : FS) :
    (parse fs.main = none ∧
      async_fix_duplicate_scene_ids parse dump ts vrf fs = (.loadYamlFailure, fs)) ∨
    (∃ scenes, parse fs.main = some scenes ∧ detect_duplicate_scene_ids scenes = [] ∧
      async_fix_duplicate_scene_ids parse dump ts vrf fs = (.noFindings, fs)) ∨
    (∃ scenes, parse fs.main = some scenes ∧ detect_duplicate_scene_ids scenes ≠ [] ∧
      fixScenes ts scenes = .error () ∧
      async_fix_duplicate_scene_ids parse dump ts vrf fs
        = (.keyFailure, ⟨fs.main, some fs.main⟩)) ∨
    (∃ scenes scenes2, parse fs.main = some scenes ∧
      detect_duplicate_scene_ids scenes ≠ [] ∧ fixScenes ts scenes = .ok scenes2 ∧
      vrf = true ∧
      async_fix_duplicate_scene_ids parse dump ts vrf fs
        = (.verifyReadFailure, ⟨dump scenes2, some fs.main⟩)) ∨
    (∃ scenes scenes2, parse fs.main = some scenes ∧
      detect_duplicate_scene_ids scenes ≠ [] ∧ fixScenes ts scenes = .ok scenes2 ∧
      vrf = false ∧ parse (dump scenes2) = none ∧
      async_fix_duplicate_scene_ids parse dump ts vrf fs
        = (.verifyYamlFailure, ⟨fs.main, none⟩)) ∨
    (∃ scenes scenes2, parse fs.main = some scenes ∧
      detect_duplicate_scene_ids scenes ≠ [] ∧ fixScenes ts scenes = .ok scenes2 ∧
      vrf = false ∧ (∃ scenes3, parse (dump scenes2) = some scenes3) ∧
      async_fix_duplicate_scene_ids parse dump ts vrf fs
        = (.committed, ⟨dump scenes2, some fs.main⟩)) := by
  unfold async_fix_duplicate_scene_ids
  cases hp : parse fs.main with
  | none => exact Or.inl ⟨rfl, rfl⟩
  | some scenes =>
    by_cases hd : detect_duplicate_scene_ids scenes = []
    · refine Or.inr (Or.inl ⟨scenes, rfl, hd, ?_⟩)
      simp [hd]
    · cases hf : fixScenes ts scenes with
      | error e =>
        refine Or.inr (Or.inr (Or.inl ⟨scenes, rfl, hd, hf, ?_⟩))
        simp [hd, hf]
      | ok scenes2 =>
        cases vrf with
        | true =>
          refine Or.inr (Or.inr (Or.inr (Or.inl
            ⟨scenes, scenes2, rfl, hd, hf, rfl, ?_⟩)))
          simp [hd, hf]
        | false =>
          cases hp2 : parse (dump scenes2) with
          | none =>
            refine Or.inr (Or.inr (Or.inr (Or.inr (Or.inl
              ⟨scenes, scenes2, rfl, hd, hf, rfl, hp2, ?_⟩))))
            simp [hd, hf, hp2]
          | some scenes3 =>
            refine Or.inr (Or.inr (Or.inr (Or.inr (Or.inr
              ⟨scenes, scenes2, rfl, hd, hf, rfl, ⟨scenes3, hp2⟩, ?_⟩))))
            simp [hd, hf, hp2]

theorem cleanup_run_total (parse : String → Option (List Scene))
    (dump : List Scene → String) (vrf : Bool) (fs : FS) :
    (parse fs.main = none ∧
      async_cleanup_empty_attributes parse dump vrf fs = (.loadYamlFailure, fs)) ∨
    (∃ scenes, parse fs.main = some scenes ∧
      detect_empty_scene_attributes scenes = [] ∧
      async_cleanup_empty_attributes parse dump vrf fs = (.noFindings, fs)) ∨
    (∃ scenes, parse fs.main = some scenes ∧
      detect_empty_scene_attributes scenes ≠ [] ∧ vrf = true ∧
      async_cleanup_empty_attributes parse dump vrf fs
        = (.verifyReadFailure, ⟨dump (cleanupScenes scenes), some fs.main⟩)) ∨
    (∃ scenes, parse fs.main = some scenes ∧
      detect_empty_scene_attributes scenes ≠ [] ∧ vrf = false ∧
      parse (dump (cleanupScenes scenes)) = none ∧
      async_cleanup_empty_attributes parse dump vrf fs
        = (.verifyYamlFailure, ⟨fs.main, none⟩)) ∨
    (∃ scenes, parse fs.main = some scenes ∧
      detect_empty_scene_attributes scenes ≠ [] ∧ vrf = false ∧
      (∃ scenes3, parse (dump (cleanupScenes scenes)) = some scenes3) ∧
      async_cleanup_empty_attributes parse dump vrf fs
        = (.committed, ⟨dump (cleanupScenes scenes), some fs.main⟩)) := by
  unfold async_cleanup_empty_attributes
  cases hp : parse fs.main with
  | none => exact Or.inl ⟨rfl, rfl⟩
  | some scenes =>
    by_cases hd : detect_empty_scene_attributes scenes = []
    · refine Or.inr (Or.inl ⟨scenes, rfl, hd, ?_⟩)
      simp [hd]
    · cases vrf with
      | true =>
        refine Or.inr (Or.inr (Or.inl ⟨scenes, rfl, hd, rfl, ?_⟩))
        simp [hd]
      | false =>
        cases hp2 : parse (dump (cleanupScenes scenes)) with
        | none =>
          refine Or.inr (Or.inr (Or.inr (Or.inl ⟨scenes, rfl, hd, rfl, hp2, ?_⟩)))
          simp [hd, hp2]
        | some scenes3 =>
          refine Or.inr (Or.inr (Or.inr (Or.inr
            ⟨scenes, rfl, hd, rfl, ⟨scenes3, hp2⟩, ?_⟩)))
          simp [hd, hp2]

/-- C1 counterexample: the repair is claimed to always yield pairwise
distinct ids, retrying on collision.  Running the id-rewriting loop on a
document with three records sharing id a, under a clock that stays within
one second (every timestamp formats to 100), succeeds and returns a
document whose ids are a, a_100, a_100 - still duplicated, because the
code never checks a generated id against used ids and never retries. -/
theorem C1_counterexample :
    fixScenes tsConst tripleA = .ok fixedTriple ∧
    ¬(fixedTriple.map sceneKey).Nodup ∧
    detect_duplicate_scene_ids tripleA ≠ [] :=
  ⟨rfl, by decide, by decide⟩

/-- C1 (amended): the id-rewriting pass performs no collision check and
no retry; its output has pairwise distinct ids only under a freshness
assumption on the generated ids, namely that no generated id equals any
defaulted id already in the document and that the generated ids of
distinct iterations differ.  Under that assumption every successful run
returns a document with pairwise distinct ids on which the duplicate
detector reports nothing. -/
theorem C1_fresh_timestamps_give_distinct_ids (ts : Nat → String)
    (scenes out : List Scene)
    (HA : ∀ m, m < scenes.length → genAt ts scenes m ∉ scenes.map sceneKey)
    (HB : ∀ m, m < scenes.length → ∀ m2, m2 < scenes.length → m ≠ m2 →
      genAt ts scenes m ≠ genAt ts scenes m2)
    (hrun : fixScenes ts scenes = .ok out) :
    (out.map sceneKey).Nodup ∧ detect_duplicate_scene_ids out = [] :=
  fix_fresh_nodup ts scenes out HA HB hrun

/-- C1 witness: the fresh-timestamp theorem applied to the two-record
document with duplicated id s1 under an advancing clock. -/
theorem C1_witness :
    (∀ m, m < dupPair.length → genAt tsStep dupPair m ∉ dupPair.map sceneKey) ∧
    ((fixedPair.map sceneKey).Nodup ∧ detect_duplicate_scene_ids fixedPair = []) :=
  ⟨by decide,
    C1_fresh_timestamps_give_distinct_ids tsStep dupPair fixedPair
      (by decide) (by decide) rfl⟩

/-- C2: in both repair services, whenever the run ends with the
verification reload failing to parse, the scene file content after the
run equals the content before the run, byte for byte, because the service
replaced the file by the backup taken before mutation; the outcome
surfaced is the verification failure, not a committed success. -/
theorem C2_verify_parse_failure_restores
    (parse : String → Option (List Scene)) (dump : List Scene → String)
    (ts : Nat → String) (vrf : Bool) (fs : FS) :
    ((async_fix_duplicate_scene_ids parse dump ts vrf fs).1 = .verifyYamlFailure →
      (async_fix_duplicate_scene_ids parse dump ts vrf fs).2.main = fs.main) ∧
    ((async_cleanup_empty_attributes parse dump vrf fs).1 = .verifyYamlFailure →
      (async_cleanup_empty_attributes parse dump vrf fs).2.main = fs.main) := by
  constructor
  · intro h
    rcases fix_run_total parse dump ts vrf fs with
      ⟨_, hr⟩ | ⟨_, _, _, hr⟩ | ⟨_, _, _, _, hr⟩ | ⟨_, _, _, _, _, _, hr⟩ |
      ⟨_, _, _, _, _, _, _, hr⟩ | ⟨_, _, _, _, _, _, _, hr⟩ <;>
      rw [hr] at h ⊢ <;> simp_all
  · intro h
    rcases cleanup_run_total parse dump vrf fs with
      ⟨_, hr⟩ | ⟨_, _, _, hr⟩ | ⟨_, _, _, _, hr⟩ | ⟨_, _, _, _, _, hr⟩ |
      ⟨_, _, _, _, _, hr⟩ <;>
      rw [hr] at h ⊢ <;> simp_all

/-- C2 witness: a concrete run of the duplicate-id service in which the
write succeeds but the written content does not parse back; the outcome
is the verification failure and the file holds the original content. -/
theorem C2_witness :
    (async_fix_duplicate_scene_ids parseDup dumpBad tsStep false fsOrig).1
        = .verifyYamlFailure ∧
    (async_fix_duplicate_scene_ids parseDup dumpBad tsStep false fsOrig).2.main
        = fsOrig.main :=
  ⟨by decide,
    (C2_verify_parse_failure_restores parseDup dumpBad tsStep false fsOrig).1
      (by decide)⟩

/-- C3 counterexample: an OSError while re-reading the file during
verification is not caught by the except clause, which names only
YAMLError, so it propagates without any rollback: the outcome is the
read failure, the scene file still holds the freshly written content
(distinct from the original), and the backup file is left in place
instead of being moved back. -/
theorem C3_counterexample :
    (async_cleanup_empty_attributes parseBx dumpBad true fsOrig).1
        = .verifyReadFailure ∧
    (async_cleanup_empty_attributes parseBx dumpBad true fsOrig).2.main
        ≠ fsOrig.main ∧
    (async_cleanup_empty_attributes parseBx dumpBad true fsOrig).2.backup
        = some fsOrig.main := by
  decide

/-- C3 (amended): during verification only a YAML parse failure triggers
the rollback, which restores the original content and consumes the
backup file; any other exception while re-reading the file, such as an
OSError, propagates without rollback, leaving the backup file unconsumed
(and the written content on disk). -/
theorem C3_verify_exception_dispositions
    (parse : String → Option (List Scene)) (dump : List Scene → String)
    (ts : Nat → String) (vrf : Bool) (fs : FS) :
    ((async_fix_duplicate_scene_ids parse dump ts vrf fs).1 = .verifyYamlFailure →
      (async_fix_duplicate_scene_ids parse dump ts vrf fs).2 = ⟨fs.main, none⟩) ∧
    ((async_fix_duplicate_scene_ids parse dump ts vrf fs).1 = .verifyReadFailure →
      (async_fix_duplicate_scene_ids parse dump ts vrf fs).2.backup = some fs.main) ∧
    ((async_cleanup_empty_attributes parse dump vrf fs).1 = .verifyYamlFailure →
      (async_cleanup_empty_attributes parse dump vrf fs).2 = ⟨fs.main, none⟩) ∧
    ((async_cleanup_empty_attributes parse dump vrf fs).1 = .verifyReadFailure →
      (async_cleanup_empty_attributes parse dump vrf fs).2.backup = some fs.main) := by
  refine ⟨?_, ?_, ?_, ?_⟩
  · intro h
    rcases fix_run_total parse dump ts vrf fs with
      ⟨_, hr⟩ | ⟨_, _, _, hr⟩ | ⟨_, _, _, _, hr⟩ | ⟨_, _, _, _, _, _, hr⟩ |
      ⟨_, _, _, _, _, _, _, hr⟩ | ⟨_, _, _, _, _, _, _, hr⟩ <;>
      rw [hr] at h ⊢ <;> simp_all
  · intro h
    rcases fix_run_total parse dump ts vrf fs with
      ⟨_, hr⟩ | ⟨_, _, _, hr⟩ | ⟨_, _, _, _, hr⟩ | ⟨_, _, _, _, _, _, hr⟩ |
      ⟨_, _, _, _, _, _, _, hr⟩ | ⟨_, _, _, _, _, _, _, hr⟩ <;>
      rw [hr] at h ⊢ <;> simp_all
  · intro h
    rcases cleanup_run_total parse dump vrf fs with
      ⟨_, hr⟩ | ⟨_, _, _, hr⟩ | ⟨_, _, _, _, hr⟩ | ⟨_, _, _, _, _, hr⟩ |
      ⟨_, _, _, _, _, hr⟩ <;>
      rw [hr] at h ⊢ <;> simp_all
  · intro h
    rcases cleanup_run_total parse dump vrf fs with
      ⟨_, hr⟩ | ⟨_, _, _, hr⟩ | ⟨_, _, _, _, hr⟩ | ⟨_, _, _, _, _, hr⟩ |
      ⟨_, _, _, _, _, hr⟩ <;>
      rw [hr] at h ⊢ <;> simp_all

/-- C3 witness: the amended dispositions applied to the concrete run in
which the verification re-read raises. -/
theorem C3_witness :
    (async_cleanup_empty_attributes parseBx dumpBad true fsOrig).1
        = .verifyReadFailure ∧
    (async_cleanup_empty_attributes parseBx dumpBad true fsOrig).2.backup
        = some fsOrig.main :=
  ⟨by decide,
    (C3_verify_exception_dispositions parseBx dumpBad tsStep true fsOrig).2.2.2
      (by decide)⟩

/-- C4 counterexample: both transforms are claimed to be pure, leaving
the caller an unmodified copy of the loaded document.  The loops mutate
the scene dicts in place, so after the transform the value reachable
through the caller's reference is the transformed document and it
differs from the loaded one on any document with defects. -/
theorem C4_counterexample :
    cleanupScenes [sceneBx] ≠ [sceneBx] ∧
    fixScenes tsConst tripleA ≠ .ok tripleA := by
  constructor
  · intro h
    exact absurd
      (congrArg
        (fun l : List Scene => l.map (fun s => s.entities.map (fun e => e.2.length)))
        h)
      (by decide)
  · intro h
    exact absurd
      (congrArg
        (fun r : Except Unit (List Scene) => r.toOption.map (fun l => l.map sceneKey))
        h)
      (by decide)

/-- C4 (amended): the repairs mutate the loaded document in place, and
what reaches the disk on a committed run is exactly the serialization of
the mutated document; no separate unaltered copy plays any role in the
pipeline. -/
theorem C4_transform_applied_to_document
    (parse : String → Option (List Scene)) (dump : List Scene → String)
    (ts : Nat → String) (vrf : Bool) (fs : FS) (scenes : List Scene) :
    (parse fs.main = some scenes →
      (async_cleanup_empty_attributes parse dump vrf fs).1 = .committed →
      (async_cleanup_empty_attributes parse dump vrf fs).2.main
        = dump (cleanupScenes scenes)) ∧
    (parse fs.main = some scenes →
      (async_fix_duplicate_scene_ids parse dump ts vrf fs).1 = .committed →
      ∃ out, fixScenes ts scenes = .ok out ∧
        (async_fix_duplicate_scene_ids parse dump ts vrf fs).2.main = dump out) := by
  constructor
  · intro hp h
    rcases cleanup_run_total parse dump vrf fs with
      ⟨hq, hr⟩ | ⟨s2, hq, _, hr⟩ | ⟨s2, hq, _, _, hr⟩ | ⟨s2, hq, _, _, _, hr⟩ |
      ⟨s2, hq, _, _, _, hr⟩ <;> rw [hr] at h ⊢ <;> simp_all
  · intro hp h
    rcases fix_run_total parse dump ts vrf fs with
      ⟨hq, hr⟩ | ⟨s2, hq, _, hr⟩ | ⟨s2, hq, _, _, hr⟩ | ⟨s2, t2, hq, _, _, _, hr⟩ |
      ⟨s2, t2, hq, _, _, _, _, hr⟩ | ⟨s2, t2, hq, hd, hf, hv, hex, hr⟩
    · rw [hr] at h; simp at h
    · rw [hr] at h; simp at h
    · rw [hr] at h; simp at h
    · rw [hr] at h; simp at h
    · rw [hr] at h; simp at h
    · rw [hr] at h ⊢
      rw [hp] at hq
      injection hq with hq2
      subst hq2
      exact ⟨t2, hf, rfl⟩

/-- C4 witness: a committed cleanup run whose final file content is the
serialization of the in-place cleaned document. -/
theorem C4_witness :
    (async_cleanup_empty_attributes parseTotal dumpConst false fsOrig).1
        = .committed ∧
    (async_cleanup_empty_attributes parseTotal dumpConst false fsOrig).2.main
        = dumpConst (cleanupScenes [sceneBx]) :=
  ⟨by decide,
    (C4_transform_applied_to_document parseTotal dumpConst tsStep false fsOrig
        [sceneBx]).1 rfl (by decide)⟩

/-- C5 counterexample: on the two-record document whose records share id
s1 there is exactly one id group of size greater than one, yet the
detector returns two entries (one name-id record per member), not one
finding per group. -/
theorem C5_counterexample :
    detect_duplicate_scene_ids dupPair = [⟨"A", "s1"⟩, ⟨"B", "s1"⟩] ∧
    ((idCount dupPair).filter (fun kg => decide (kg.2.length > 1))).length = 1 ∧
    (detect_duplicate_scene_ids dupPair).length ≠ 1 := by
  decide

/-- C5 (amended): the detector returns the empty list exactly when the
defaulted ids (missing id reads as the empty string, which is a valid
groupable key) are pairwise distinct; the grouping dict holds, under each
key, exactly the name-id records of the scenes with that id in document
order; and the returned list is the concatenation, in group insertion
order, of the member records of every group with more than one member -
a flat list with one entry per affected record rather than one finding
per group. -/
theorem C5_detector_characterization (scenes : List Scene) :
    (detect_duplicate_scene_ids scenes = [] ↔ (scenes.map sceneKey).Nodup) ∧
    (∀ k, membersOf (idCount scenes) k
        = (scenes.filter (fun s => decide (sceneKey s = k))).map sceneEntry) ∧
    detect_duplicate_scene_ids scenes
      = (((idCount scenes).filter (fun kg => decide (kg.2.length > 1))).map
          (fun kg => kg.2)).flatten :=
  ⟨detect_nil_iff scenes, membersOf_idCount scenes, detect_eq_flatten scenes⟩

/-- C6: the empty-attribute detector reports a record exactly once, with
the aggregate count of attribute values equal to null or the empty
string across all entities of the record, precisely when that count is
positive; the Scenario B record with a null brightness and an empty
color is reported with count two. -/
theorem C6_empty_attribute_detector :
    (∀ scenes : List Scene,
      detect_empty_scene_attributes scenes
        = (scenes.filter (fun s => decide (sceneEmptyCountSpec s ≠ 0))).map
            (fun s => ⟨sceneName s, sceneKey s, sceneEmptyCountSpec s⟩)) ∧
    detect_empty_scene_attributes [sceneBx] = [⟨"X", "s3", 2⟩] :=
  ⟨detect_empty_eq_filter_map, by decide⟩

/-- C7: on well-formed documents (dict keys distinct, as Python dicts
guarantee) the cleanup loop removes exactly the attribute keys whose
value is null or the empty string: it equals the per-entity filter of
the specification, keeps every record (same document length) and keeps
every entity key (an emptied entity stays as an empty map). -/
theorem C7_cleanup_removes_exactly_empty (scenes : List Scene)
    (h : docWF scenes) :
    cleanupScenes scenes = stripEmptyAttributesSpec scenes ∧
    (cleanupScenes scenes).length = scenes.length ∧
    (cleanupScenes scenes).map (fun s => s.entities.map Prod.fst)
      = scenes.map (fun s => s.entities.map Prod.fst) := by
  refine ⟨?_, ?_, ?_⟩
  · unfold cleanupScenes stripEmptyAttributesSpec
    exact List.map_congr_left (fun s hs => cleanupScene_spec s (h s hs))
  · simp [cleanupScenes]
  · unfold cleanupScenes
    rw [List.map_map]
    apply List.map_congr_left
    intro s _
    simp [cleanupScene, Function.comp, List.map_map]

/-- C7 witness: the cleanup of the Scenario B document equals the
specification filter; its single entity is kept as an empty map. -/
theorem C7_witness :
    docWF [sceneBx] ∧
    cleanupScenes [sceneBx] = stripEmptyAttributesSpec [sceneBx] :=
  ⟨by decide, (C7_cleanup_removes_exactly_empty [sceneBx] (by decide)).1⟩

/-- C8: the empty-attribute cleanup is idempotent: applying the loop a
second time changes nothing, because the first pass leaves no attribute
value equal to null or the empty string. -/
theorem C8_cleanup_idempotent (scenes : List Scene) :
    cleanupScenes (cleanupScenes scenes) = cleanupScenes scenes := by
  unfold cleanupScenes
  rw [List.map_map]
  exact List.map_congr_left (fun s _ => cleanupScene_idem s)

/-- C9: on a document with at least one duplicated id and a record that
lacks the id key while no earlier record has the empty string as
defaulted id, the duplicate-id service stops with the KeyError raised at
the used-ids insertion: the backup file has already been created (it
holds the original content) and the scene file itself is untouched. -/
theorem C9_missing_id_key_error
    (parse : String → Option (List Scene)) (dump : List Scene → String)
    (ts : Nat → String) (vrf : Bool) (fs : FS) (doc front : List Scene)
    (s : Scene) (back : List Scene)
    (hparse : parse fs.main = some doc)
    (hdoc : doc = front ++ s :: back)
    (hid : s.id = none)
    (hfront : ∀ t ∈ front, sceneKey t ≠ "")
    (hdup : detect_duplicate_scene_ids doc ≠ []) :
    async_fix_duplicate_scene_ids parse dump ts vrf fs
      = (.keyFailure, ⟨fs.main, some fs.main⟩) := by
  have herr : fixScenes ts doc = .error () := by
    unfold fixScenes
    rw [hdoc]
    exact fixAux_missing_id ts front s back 0 [] hid hfront (by simp)
  unfold async_fix_duplicate_scene_ids
  simp [hparse, hdup, herr]

/-- C9 witness: the concrete document with two records of id a followed
by a record without id; the service ends in the KeyError with the
original content intact and the backup left behind. -/
theorem C9_witness :
    detect_duplicate_scene_ids missingIdDoc ≠ [] ∧
    async_fix_duplicate_scene_ids parseMissing dumpBad tsStep false fsOrig
      = (.keyFailure, ⟨fsOrig.main, some fsOrig.main⟩) :=
  ⟨by decide,
    C9_missing_id_key_error parseMissing dumpBad tsStep false fsOrig missingIdDoc
      [⟨some "a", some "A", []⟩, ⟨some "a", some "B", []⟩] sceneNoId []
      rfl rfl rfl (by decide) (by decide)⟩

/-- C10 counterexample: pruning is claimed to leave no null entry at any
nesting depth, yet a dict value that is a nonempty tuple is returned
unchanged without recursion, so a null dict value nested inside the
tuple survives the prune. -/
theorem C10_counterexample :
    prune_empty_scene_values tupExample = tupExample ∧
    deepClean (prune_empty_scene_values tupExample) = false :=
  ⟨rfl, rfl⟩

/-- C10 (amended): the output of the prune contains no dict value and no
list item that is null or an empty container at any depth reached
through dicts and lists; tuples are returned unchanged without
recursion, so entries inside nonempty tuples are not constrained; and
entries whose value is the empty string are retained unchanged. -/
theorem C10_prune_characterization :
    (∀ v, cleanVal (prune_empty_scene_values v) = true) ∧
    (∀ vs, prune_empty_scene_values (.vtup vs) = .vtup vs) ∧
    (∀ es k, (k, Val.vstr "") ∈ es → (k, Val.vstr "") ∈ pruneEntries es) ∧
    (∀ vs, Val.vstr "" ∈ vs → Val.vstr "" ∈ pruneItems vs) :=
  ⟨cleanVal_prune, fun _ => rfl,
    fun es k h => pruneEntries_keeps_empty_string es k h,
    fun vs h => pruneItems_keeps_empty_string vs h⟩

/-- C10 witness: the empty-string color attribute of the Scenario B map
is retained by the prune. -/
theorem C10_witness :
    ("color", Val.vstr "") ∈ lightAttrs ∧
    ("color", Val.vstr "") ∈ pruneEntries lightAttrs :=
  ⟨by simp [lightAttrs],
    C10_prune_characterization.2.2.1 lightAttrs "color" (by simp [lightAttrs])⟩

end StatefulScenes
